import Mathlib

/-!
Verification of the scroll-triggered animation utilities of the
single-page site in `src/src/App.jsx`: the `useInView` visibility hook,
the `Counter` animated counter, the `Typewriter` text reveal, the
`Reveal` wrapper, and the `Findings` section data that feeds `Counter`.

Numbers that flow through the counter are JavaScript numbers; the
values reached by the code are exact-rational values plus the IEEE
specials `Infinity` / `NaN` that arise from division by zero, so we
model them with `JSNum`, a rational tagged with those specials.
-/

/-- A JavaScript number as reached by this code: an exact rational,
positive or negative infinity, or NaN. -/
inductive JSNum where
  | nan : JSNum
  | posInf : JSNum
  | negInf : JSNum
  | num : ℚ → JSNum
deriving DecidableEq, Repr

/-- JavaScript division `a / b` on the values the code reaches.
Division by (positive) zero yields an infinity of the sign of the
dividend, and `0 / 0` yields NaN. -/
def JSNum.div : JSNum → JSNum → JSNum
  | .num a, .num b =>
      if b = 0 then
        if a = 0 then .nan else if 0 < a then .posInf else .negInf
      else .num (a / b)
  | .num _, .posInf => .num 0
  | .num _, .negInf => .num 0
  | .posInf, .num b => if 0 ≤ b then .posInf else .negInf
  | .negInf, .num b => if 0 ≤ b then .negInf else .posInf
  | _, _ => .nan

/-- JavaScript addition `a + b` on the values the code reaches. -/
def JSNum.add : JSNum → JSNum → JSNum
  | .num a, .num b => .num (a + b)
  | .num _, .posInf => .posInf
  | .posInf, .num _ => .posInf
  | .posInf, .posInf => .posInf
  | .num _, .negInf => .negInf
  | .negInf, .num _ => .negInf
  | .negInf, .negInf => .negInf
  | _, _ => .nan

/-- JavaScript comparison `a >= b`: any comparison with NaN is false. -/
def JSNum.geq : JSNum → JSNum → Bool
  | .num a, .num b => decide (b ≤ a)
  | .nan, _ => false
  | _, .nan => false
  | .posInf, _ => true
  | _, .posInf => false
  | _, .negInf => true
  | .negInf, _ => false

/-- `Math.floor`: floors a finite value, fixes NaN and the infinities. -/
def JSNum.floor : JSNum → JSNum
  | .num q => .num ((⌊q⌋ : ℤ) : ℚ)
  | x => x

/-- The state local to one run of the `Counter` effect: the `start`
accumulator, the displayed `count`, and whether the interval is still
running (not yet cleared by `clearInterval`). -/
structure CounterState where
  start : JSNum
  count : JSNum
  running : Bool
deriving DecidableEq, Repr

/-- State when the effect starts: `start = 0`, `count = 0` (the
`useState(0)` initial value), interval just installed. -/
def counterInit : CounterState := ⟨.num 0, .num 0, true⟩

/-- `const step = end / (duration / 16);` -/
def counterStep (endVal duration : JSNum) : JSNum :=
  endVal.div (duration.div (.num 16))

/-- One interval tick: `start += step; if (start >= end) { setCount(end);
clearInterval(timer); } else setCount(Math.floor(start));`.  A tick on a
cleared interval does nothing. -/
def counterTick (endVal step : JSNum) (s : CounterState) : CounterState :=
  if s.running then
    let start := s.start.add step
    if start.geq endVal then ⟨start, endVal, false⟩
    else ⟨start, start.floor, true⟩
  else s

/-- The counter state after `n` ticks, for integer configuration
`end = endVal`, `duration` (the page passes integers). -/
def counterRun (endVal duration : ℕ) : ℕ → CounterState
  | 0 => counterInit
  | n + 1 =>
      counterTick (.num endVal) (counterStep (.num endVal) (.num duration))
        (counterRun endVal duration n)

/-- The displayed value after `n` ticks. -/
def counterDisplay (endVal duration n : ℕ) : JSNum :=
  (counterRun endVal duration n).count

/-!
`Typewriter` (`src/src/App.jsx` lines 55-83).  Text is modelled as a
list of characters; `text.slice(0, i)` is `List.take i`.  Two aspects
are embedded: the `started`-flag trigger logic of the effect body, and
the full lifecycle of one mount under the React effect contract.  The
contract matters: the effect lists `started` in its dependency array
and calls `setStarted(true)` in its own body, so the commit of that
state update re-runs the effect, and React first runs the previous
cleanup `() => clearTimeout(timeout)` - cancelling the 500 ms delay
timeout milliseconds after it was created, before it can fire.
-/

/-- The triggering guard of the `Typewriter` effect: the `started`
flag, plus a count of how many reveal sequences have been launched. -/
structure TWTrigger where
  started : Bool
  sequences : ℕ
deriving DecidableEq, Repr

/-- One evaluation of the effect for a visibility value `inView`:
`if (!inView || started) return; setStarted(true); ...` (launching a
sequence). -/
def twTriggerStep (s : TWTrigger) (inView : Bool) : TWTrigger :=
  if !inView || s.started then s else ⟨true, s.sequences + 1⟩

/-- The trigger state after a list of visibility evaluations within one
mount, starting from `started = false` and no sequence launched. -/
def twTriggerRun (evals : List Bool) : TWTrigger :=
  evals.foldl twTriggerStep ⟨false, 0⟩

/-- Full lifecycle state of one `Typewriter` mount: the `started` and
`displayed` React state, the reveal index `i`, whether the delay
timeout is pending, whether the character interval is installed,
whether the current effect cleanup is `() => clearTimeout(timeout)`,
and whether the component is still mounted. -/
structure TWMount where
  started : Bool
  displayed : List Char
  i : ℕ
  timeoutPending : Bool
  intervalActive : Bool
  cleanupTimeout : Bool
  mounted : Bool
deriving DecidableEq, Repr

/-- A fresh mount: nothing started, nothing displayed, no timers, no
cleanup registered (the effect ran with `inView` false and returned at
the guard). -/
def twmInit : TWMount := ⟨false, [], 0, false, false, false, true⟩

/-- Events delivered to one `Typewriter` mount: the visibility flag
flipping true (the effect body runs), the commit of the re-render
caused by `setStarted(true)` (previous cleanup runs, then the effect
re-runs and returns at the guard), the delay timeout firing, a
character-interval tick, and the unmount of the component. -/
inductive TWMEvent where
  | visible : TWMEvent
  | rerender : TWMEvent
  | fireDelay : TWMEvent
  | tick : TWMEvent
  | unmount : TWMEvent
deriving DecidableEq, Repr

/-- Event semantics of one `Typewriter` mount under the React effect
contract.
* `visible`: the effect body with `inView` true: past the
  `!inView || started` guard it sets `started`, schedules the delay
  timeout and registers `() => clearTimeout(timeout)` as the cleanup.
* `rerender`: the commit of the `setStarted(true)` state update.  The
  `started` dependency changed, so React runs the previous cleanup,
  which clears the pending delay timeout, then re-runs the effect,
  which returns at the guard registering no cleanup.
* `fireDelay`: the timeout callback; it only runs while the timeout is
  still pending, and installs the character interval.
* `tick`: the interval callback `i++; setDisplayed(text.slice(0, i));
  if (i >= text.length) clearInterval(interval);`.
* `unmount`: React runs the current effect cleanup (clearing the delay
  timeout if that cleanup is registered).  Nothing ever clears the
  interval here: its `() => clearInterval(interval)` closure is
  returned from the `setTimeout` callback, whose return value
  `setTimeout` discards. -/
def twmStep (text : List Char) (s : TWMount) : TWMEvent → TWMount
  | .visible =>
      if s.mounted && !s.started then
        { s with started := true, timeoutPending := true,
                 cleanupTimeout := true }
      else s
  | .rerender =>
      if s.mounted then
        { s with timeoutPending :=
                   if s.cleanupTimeout then false else s.timeoutPending,
                 cleanupTimeout := false }
      else s
  | .fireDelay =>
      if s.timeoutPending then
        { s with timeoutPending := false, intervalActive := true }
      else s
  | .tick =>
      if s.intervalActive then
        { s with displayed := text.take (s.i + 1), i := s.i + 1,
                 intervalActive := decide (s.i + 1 < text.length) }
      else s
  | .unmount =>
      if s.mounted then
        { s with mounted := false,
                 timeoutPending :=
                   if s.cleanupTimeout then false else s.timeoutPending,
                 cleanupTimeout := false }
      else s

/-- The mount state after a list of events. -/
def twmRun (text : List Char) (events : List TWMEvent) : TWMount :=
  events.foldl (twmStep text) twmInit

/-- The `Counter` effect cleanup `() => clearInterval(timer)`, run by
React on unmount: the interval is removed, the state values remain. -/
def counterUnmount (s : CounterState) : CounterState :=
  ⟨s.start, s.count, false⟩

/-!
`useInView` (`src/src/App.jsx` lines 20-34).  The observer callback is
`([entry]) => { if (entry.isIntersecting) setIsInView(true); }`.  The
browser reports `entry.isIntersecting` for a visible-area ratio that
meets the configured threshold, which we model as `threshold ≤ ratio`.
-/

/-- Whether the observer reports the entry as intersecting for a given
visible-area `ratio` under the configured `threshold`. -/
def isIntersectingAt (threshold ratio : ℚ) : Bool :=
  decide (threshold ≤ ratio)

/-- The observer callback applied to the current flag:
`if (entry.isIntersecting) setIsInView(true);`. -/
def inViewCallback (isInView : Bool) (intersecting : Bool) : Bool :=
  if intersecting then true else isInView

/-- The `isInView` flag after a sequence of intersection events with
visible-area ratios `ratios`, starting from `useState(false)`. -/
def hasEnteredView (threshold : ℚ) (ratios : List ℚ) : Bool :=
  (ratios.map (isIntersectingAt threshold)).foldl inViewCallback false

/-- Reading of the options object in `useInView`:
`options.threshold || 0.15`.  A JavaScript `||` takes the default when
the left side is falsy, which for a number includes `0`; an absent
field is `undefined`, also falsy. -/
def jsOrNum (v : Option ℚ) (dflt : ℚ) : ℚ :=
  match v with
  | Option.none => dflt
  | Option.some t => if t = 0 then dflt else t

/-- Reading of `options.rootMargin || "0px"`: the empty string is
falsy. -/
def jsOrString (v : Option String) (dflt : String) : String :=
  match v with
  | Option.none => dflt
  | Option.some s => if s = "" then dflt else s

/-- The threshold actually handed to the `IntersectionObserver`. -/
def resolvedThreshold (threshold : Option ℚ) : ℚ :=
  jsOrNum threshold 0.15

/-- The root margin actually handed to the `IntersectionObserver`. -/
def resolvedRootMargin (rootMargin : Option String) : String :=
  jsOrString rootMargin "0px"

/-!
`Reveal` (`src/src/App.jsx` lines 86-107).
-/

/-- The `direction` configuration of `Reveal`. -/
inductive Direction where
  | up : Direction
  | left : Direction
  | right : Direction
  | none : Direction
deriving DecidableEq, Repr

/-- The `transforms` table of `Reveal`. -/
def transforms : Direction → String
  | .up => "translateY(60px)"
  | .left => "translateX(-60px)"
  | .right => "translateX(60px)"
  | .none => "translateY(0px)"

/-- The style properties `Reveal` computes from the visibility flag. -/
structure RevealStyle where
  opacity : ℕ
  transform : String
deriving DecidableEq, Repr

/-- `opacity: inView ? 1 : 0, transform: inView ? "translate(0,0)"
: transforms[direction]`. -/
def revealStyle (inView : Bool) (direction : Direction) : RevealStyle :=
  ⟨if inView then 1 else 0,
   if inView then "translate(0,0)" else transforms direction⟩

/-- Semantics of the CSS translate strings the code emits, as an
(x, y) offset in units, with y positive pointing down. -/
def cssTranslate : String → Option (ℤ × ℤ)
  | "translate(0,0)" => some (0, 0)
  | "translateY(60px)" => some (0, 60)
  | "translateY(0px)" => some (0, 0)
  | "translateX(-60px)" => some (-60, 0)
  | "translateX(60px)" => some (60, 0)
  | _ => Option.none

/-- Follows the claim text, not the code: the offset each direction is
specified to produce while hidden (up: 60 units downward, left: 60
units toward the left edge, right: 60 units toward the right edge,
none: no offset). -/
def claimedOffset : Direction → ℤ × ℤ
  | .up => (0, 60)
  | .left => (-60, 0)
  | .right => (60, 0)
  | .none => (0, 0)

/-!
`Findings` (`src/src/App.jsx` lines 441-540).  Only the fields consumed
by the `Counter` element at line 516 are modelled. -/

/-- One entry of the `findings` array (`number`, `suffix`, `label`;
the `detail` field is not consumed by the `Counter` element). -/
structure Finding where
  number : ℕ
  suffix : String
  label : String
deriving DecidableEq, Repr

/-- The `findings` array of the `Findings` section. -/
def findings : List Finding :=
  [⟨100, "K+", "Monthly recurring revenue generated"⟩,
   ⟨19, "x", "Return on ad spend"⟩,
   ⟨20, "M+", "GMV processed through Reacher"⟩,
   ⟨1000, "+", "Creator partnerships orchestrated"⟩]

/-- The value of `f.number >= 20 ? "$" === f.label[0] ? "$" : "" : ""`
passed at line 516 (JavaScript `s[0]` is the first character of `s` as
a one-character string). -/
def dollarArg (f : Finding) : String :=
  if 20 ≤ f.number then (if f.label.take 1 = "$" then "$" else "") else ""

/-!
Helper lemmas.
-/

lemma foldl_inViewCallback (l : List Bool) (b : Bool) :
    l.foldl inViewCallback b = (b || l.any id) := by
  induction l generalizing b with
  | nil => simp
  | cons e rest ih => cases e <;> simp [inViewCallback, ih]

lemma hasEnteredView_any (threshold : ℚ) (ratios : List ℚ) :
    hasEnteredView threshold ratios = ratios.any (isIntersectingAt threshold) := by
  rw [hasEnteredView, foldl_inViewCallback, Bool.false_or]
  induction ratios with
  | nil => rfl
  | cons r rest ih => simp [ih]

lemma foldl_twTriggerStep_started (l : List Bool) (n : ℕ) :
    l.foldl twTriggerStep ⟨true, n⟩ = ⟨true, n⟩ := by
  induction l with
  | nil => rfl
  | cons e rest ih => simp [twTriggerStep, ih]

lemma twTriggerRun_eq (evals : List Bool) :
    twTriggerRun evals = if true ∈ evals then ⟨true, 1⟩ else ⟨false, 0⟩ := by
  induction evals with
  | nil => rfl
  | cons e rest ih =>
      cases e
      · have h : twTriggerRun (false :: rest) = twTriggerRun rest := by
          simp [twTriggerRun, twTriggerStep]
        rw [h, ih]
        simp
      · have h : twTriggerRun (true :: rest) =
            rest.foldl twTriggerStep ⟨true, 1⟩ := by
          simp [twTriggerRun, twTriggerStep]
        rw [h, foldl_twTriggerStep_started]
        simp

/-!
Claim theorems, first group.
-/

/-- C7: for every configured direction, while the visibility flag is
false the computed style has opacity 0 and a transform equal to the
configured 60-unit offset of the direction, and once the flag is true
it has opacity 1 and the identity transform. -/
theorem reveal_style_spec (d : Direction) :
    (revealStyle false d).opacity = 0
    ∧ cssTranslate (revealStyle false d).transform = some (claimedOffset d)
    ∧ (revealStyle true d).opacity = 1
    ∧ cssTranslate (revealStyle true d).transform = some (0, 0) := by
  cases d <;> exact ⟨rfl, rfl, rfl, rfl⟩

/-- C9: for every entry of the findings list, the expression passed to
the Counter as its dollar marker evaluates to the empty string, so the
conditional is dead and no finding displays a dollar marker. -/
theorem findings_dollar_arg_empty :
    findings.map dollarArg = ["", "", "", ""] := by
  decide

/-- C10: `useInView` reads its options with falsy-or defaults, so an
explicit threshold 0 (or root margin "") is replaced by the default
0.15 (respectively "0px") and a zero threshold cannot be configured,
while the non-zero thresholds 0.1, 0.3 and 0.5 used by `Reveal`,
`Typewriter` and `Counter` are honored. -/
theorem inview_falsy_defaults :
    resolvedThreshold (some 0) = 0.15
    ∧ (0.15 : ℚ) ≠ 0
    ∧ resolvedRootMargin (some "") = "0px"
    ∧ resolvedThreshold Option.none = 0.15
    ∧ resolvedRootMargin Option.none = "0px"
    ∧ resolvedThreshold (some 0.1) = 0.1
    ∧ resolvedThreshold (some 0.3) = 0.3
    ∧ resolvedThreshold (some 0.5) = 0.5 := by
  refine ⟨by norm_num [resolvedThreshold, jsOrNum], by norm_num, rfl, rfl, rfl,
    ?_, ?_, ?_⟩ <;> norm_num [resolvedThreshold, jsOrNum]

/-- C4: within one mount, for every sequence of visibility evaluations
at most one reveal sequence is started (exactly one as soon as some
evaluation sees the flag true), and the started flag never goes back
to false under further evaluations. -/
theorem typewriter_triggered_once (evals : List Bool) :
    (twTriggerRun evals).sequences ≤ 1
    ∧ (true ∈ evals → (twTriggerRun evals).sequences = 1)
    ∧ ∀ more, (twTriggerRun evals).started = true →
        (twTriggerRun (evals ++ more)).started = true := by
  refine ⟨?_, ?_, ?_⟩
  · rw [twTriggerRun_eq]
    split <;> simp
  · intro h
    rw [twTriggerRun_eq, if_pos h]
  · intro more h
    rw [twTriggerRun_eq] at h
    rw [twTriggerRun_eq]
    by_cases hm : true ∈ evals
    · rw [if_pos (List.mem_append_left more hm)]
    · rw [if_neg hm] at h
      simp at h

/-- C4 witness: two rapid true evaluations start exactly one
sequence. -/
theorem typewriter_triggered_once_witness :
    (twTriggerRun [true, true]).sequences = 1 :=
  (typewriter_triggered_once [true, true]).2.1 (by decide)

/-- C5: for every configured threshold and every sequence of
intersection events, the flag is set exactly when some event ratio
meets the threshold, and once true it never reverts to false under any
further events (in particular when the element leaves the viewport). -/
theorem inview_one_way (threshold : ℚ) (ratios : List ℚ) :
    (hasEnteredView threshold ratios = true ↔ ∃ r ∈ ratios, threshold ≤ r)
    ∧ ∀ more, hasEnteredView threshold ratios = true →
        hasEnteredView threshold (ratios ++ more) = true := by
  constructor
  · rw [hasEnteredView_any]
    simp [isIntersectingAt]
  · intro more h
    rw [hasEnteredView_any] at h ⊢
    rw [List.any_append, h]
    rfl

/-- C5 witness: the flag set by a ratio 1 event stays true after a
later ratio -1 event (the element leaving the viewport). -/
theorem inview_one_way_witness :
    hasEnteredView 0 ([1] ++ [-1]) = true :=
  (inview_one_way 0 [1]).2 [-1]
    ((inview_one_way 0 [1]).1.mpr ⟨1, by simp, by norm_num⟩)

/-- A mount state with no pending timers and the component unmounted is
completely inert: no further event changes it, in particular no timer
callback fires. -/
lemma twmStep_dead (text : List Char) (s : TWMount)
    (hm : s.mounted = false) (hp : s.timeoutPending = false)
    (hi : s.intervalActive = false) :
    ∀ e, twmStep text s e = s := by
  intro e
  cases e <;> simp [twmStep, hm, hp, hi]

lemma twmFold_dead (text : List Char) :
    ∀ (post : List TWMEvent) (s : TWMount),
      s.mounted = false → s.timeoutPending = false →
      s.intervalActive = false →
      post.foldl (twmStep text) s = s := by
  intro post
  induction post with
  | nil => intro s _ _ _; rfl
  | cons e rest ih =>
      intro s hm hp hi
      rw [List.foldl_cons, twmStep_dead text s hm hp hi e]
      exact ih s hm hp hi

/-- C3: unmounting at any point of the real execution of a mount -
before visibility, during the millisecond window in which the delay
timeout is pending (before the `started` re-render commits), or after
that re-render - cancels every pending timer of the instance, and no
timer callback (nor any other event) changes the state after the
unmount.  The character-reveal phase of the Typewriter is unreachable
(the delay timeout is always cancelled first), so no interval can be
pending either.  For the Counter, unmounting at any state runs
`clearInterval`, after which a tick callback is a no-op. -/
theorem animators_unmount_cancel (text : List Char) (post : List TWMEvent) :
    (twmRun text (.unmount :: post) = twmRun text [.unmount]
      ∧ (twmRun text [.unmount]).timeoutPending = false
      ∧ (twmRun text [.unmount]).intervalActive = false)
    ∧ (twmRun text (.visible :: .unmount :: post)
        = twmRun text [.visible, .unmount]
      ∧ (twmRun text [.visible, .unmount]).timeoutPending = false
      ∧ (twmRun text [.visible, .unmount]).intervalActive = false)
    ∧ (twmRun text (.visible :: .rerender :: .unmount :: post)
        = twmRun text [.visible, .rerender, .unmount]
      ∧ (twmRun text [.visible, .rerender, .unmount]).timeoutPending = false
      ∧ (twmRun text [.visible, .rerender, .unmount]).intervalActive = false)
    ∧ (∀ endVal step : JSNum, ∀ s : CounterState,
        counterTick endVal step (counterUnmount s) = counterUnmount s
        ∧ (counterUnmount s).running = false) := by
  refine ⟨⟨?_, rfl, rfl⟩, ⟨?_, rfl, rfl⟩, ⟨?_, rfl, rfl⟩,
    fun endVal step s => ⟨by simp [counterTick, counterUnmount], rfl⟩⟩
  · exact twmFold_dead text post _ rfl rfl rfl
  · exact twmFold_dead text post _ rfl rfl rfl
  · exact twmFold_dead text post _ rfl rfl rfl

/-!
What one `Typewriter` mount actually does after becoming visible: the
`started` re-render commit cancels the delay timeout, so the state is
stuck with nothing displayed.
-/

/-- A mount state that has started, with no pending timeout and no
installed interval, never changes its displayed text again, and no
timer ever becomes pending or installed. -/
lemma twmStep_stuck (text : List Char) (s : TWMount)
    (hs : s.started = true) (hp : s.timeoutPending = false)
    (hi : s.intervalActive = false) :
    ∀ e, (twmStep text s e).displayed = s.displayed
      ∧ (twmStep text s e).started = true
      ∧ (twmStep text s e).timeoutPending = false
      ∧ (twmStep text s e).intervalActive = false := by
  intro e
  cases e <;> simp [twmStep, hs, hp, hi] <;> split <;> simp [hs, hp, hi]

lemma twmFold_stuck (text : List Char) :
    ∀ (post : List TWMEvent) (s : TWMount),
      s.started = true → s.timeoutPending = false →
      s.intervalActive = false →
      (post.foldl (twmStep text) s).displayed = s.displayed
      ∧ (post.foldl (twmStep text) s).intervalActive = false := by
  intro post
  induction post with
  | nil => intro s _ _ hi; exact ⟨rfl, hi⟩
  | cons e rest ih =>
      intro s hs hp hi
      obtain ⟨hd, hs2, hp2, hi2⟩ := twmStep_stuck text s hs hp hi e
      rw [List.foldl_cons]
      obtain ⟨ihd, ihi⟩ := ih (twmStep text s e) hs2 hp2 hi2
      exact ⟨ihd.trans hd, ihi⟩

/-- C6: evaluation of the `Typewriter` at the failing input.  After the
visibility flag flips true and the `setStarted(true)` re-render commits
(milliseconds later, long before the 500 ms delay elapses), the re-run
cleanup has cancelled the delay timeout: however many further events
occur - in particular after `delay + n * speed` has elapsed - the
displayed text is still empty, never the text, and the character
interval is never even installed.  The claim (one character per tick,
ending exactly at the text) describes the intended behavior the code
fails to implement. -/
theorem typewriter_never_displays (text : List Char) (post : List TWMEvent) :
    (twmRun text (.visible :: .rerender :: post)).displayed = []
    ∧ (twmRun text (.visible :: .rerender :: post)).intervalActive = false
    ∧ (twmRun text [.visible, .rerender]).timeoutPending = false := by
  have h := twmFold_stuck text post
    (twmStep text (twmStep text twmInit .visible) .rerender) rfl rfl rfl
  exact ⟨h.1, h.2, rfl⟩

/-!
Closed form of the Counter run.  With integer configuration and
`duration ≠ 0` everything stays rational: the step is
`16 * endVal / duration` and the accumulator after `k` ticks is `k`
times that.
-/

/-- The rational value of the counter step for `duration ≠ 0`. -/
def counterStepQ (e d : ℕ) : ℚ := 16 * e / d

lemma counterStepQ_zero (d : ℕ) : counterStepQ 0 d = 0 := by
  simp [counterStepQ]

lemma counterStep_eq (e d : ℕ) (hd : d ≠ 0) :
    counterStep (.num e) (.num d) = .num (counterStepQ e d) := by
  have hd' : ((d:ℚ)) ≠ 0 := Nat.cast_ne_zero.mpr hd
  have h16 : ((16:ℚ)) ≠ 0 := by norm_num
  have hdiv : ((d:ℚ)) / 16 ≠ 0 := div_ne_zero hd' h16
  simp only [counterStep, JSNum.div, if_neg h16, if_neg hdiv]
  congr 1
  rw [div_div_eq_mul_div, counterStepQ]
  ring

lemma counterTick_run_ge (endQ q s0 c0 : ℚ) (h : endQ ≤ s0 + q) :
    counterTick (.num endQ) (.num q) ⟨.num s0, .num c0, true⟩ =
      ⟨.num (s0 + q), .num endQ, false⟩ := by
  rw [counterTick]
  simp only [JSNum.add, JSNum.geq]
  rw [if_pos trivial, if_pos]
  simp only [decide_eq_true_eq]
  exact h

lemma counterTick_stopped (a b : JSNum) (s : CounterState)
    (h : s.running = false) : counterTick a b s = s := by
  simp [counterTick, h]

lemma counterRun_end_zero (d : ℕ) (hd : d ≠ 0) :
    ∀ k, counterRun 0 d (k + 1) = ⟨.num 0, .num 0, false⟩ := by
  have hs : counterStep (.num (0:ℕ)) (.num d) = .num 0 := by
    rw [counterStep_eq 0 d hd, counterStepQ_zero]
  intro k
  induction k with
  | zero =>
      rw [show counterRun 0 d 1 =
            counterTick (.num (0:ℕ)) (counterStep (.num (0:ℕ)) (.num d))
              counterInit from rfl, hs, counterInit,
          counterTick_run_ge _ _ _ _ (by norm_num : ((0:ℕ):ℚ) ≤ 0 + 0)]
      norm_num
  | succ k ih =>
      rw [show counterRun 0 d (k + 1 + 1) =
            counterTick (.num (0:ℕ)) (counterStep (.num (0:ℕ)) (.num d))
              (counterRun 0 d (k + 1)) from rfl,
          ih, counterTick_stopped _ _ _ rfl]

lemma counterDisplay_end_zero (d : ℕ) (hd : 0 < d) :
    ∀ k, counterDisplay 0 d k = .num 0 := by
  intro k
  cases k with
  | zero => rfl
  | succ k => rw [counterDisplay, counterRun_end_zero d hd.ne' k]

lemma counterRun_nan : ∀ k, counterRun 0 0 (k + 1) = ⟨.nan, .nan, true⟩ := by
  have hs : counterStep (.num ((0:ℕ):ℚ)) (.num ((0:ℕ):ℚ)) = .nan := by
    have h16 : ((16:ℚ)) ≠ 0 := by norm_num
    simp only [Nat.cast_zero, counterStep, JSNum.div, if_neg h16]
    norm_num
  intro k
  induction k with
  | zero =>
      rw [show counterRun 0 0 1 =
            counterTick (.num ((0:ℕ):ℚ))
              (counterStep (.num ((0:ℕ):ℚ)) (.num ((0:ℕ):ℚ)))
              counterInit from rfl, hs]
      rfl
  | succ k ih =>
      rw [show counterRun 0 0 (k + 1 + 1) =
            counterTick (.num ((0:ℕ):ℚ))
              (counterStep (.num ((0:ℕ):ℚ)) (.num ((0:ℕ):ℚ)))
              (counterRun 0 0 (k + 1)) from rfl, ih, hs]
      rfl

/-- C2 counterexample: with end 0 and duration 0 the step computation
divides zero by zero and yields NaN, after five ticks the interval is
still running (a timer is left pending) and the displayed value is NaN,
not 0. -/
theorem counter_duration_zero_cex :
    counterStep (.num ((0:ℕ):ℚ)) (.num ((0:ℕ):ℚ)) = .nan
    ∧ (counterRun 0 0 5).running = true
    ∧ (counterRun 0 0 5).count = .nan
    ∧ (counterRun 0 0 5).count ≠ .num 0 := by
  have h5 : counterRun 0 0 5 = ⟨.nan, .nan, true⟩ := counterRun_nan 4
  have hs : counterStep (.num ((0:ℕ):ℚ)) (.num ((0:ℕ):ℚ)) = .nan := by
    have h16 : ((16:ℚ)) ≠ 0 := by norm_num
    simp only [Nat.cast_zero, counterStep, JSNum.div, if_neg h16]
    norm_num
  refine ⟨hs, ?_, ?_, ?_⟩
  · rw [h5]
  · rw [h5]
  · rw [h5]
    simp

/-- C2 amended: with end 0 and positive duration the step is computed
as 0 without division by zero, the displayed value is 0 at every tick,
and the interval is cancelled at the first tick; with duration 0 the
step divides by zero (see the counterexample). -/
theorem counter_degenerate_amended (d : ℕ) (hd : 0 < d) :
    counterStep (.num ((0:ℕ):ℚ)) (.num (d:ℚ)) = .num 0
    ∧ (∀ k, counterDisplay 0 d k = .num 0)
    ∧ (∀ k, 1 ≤ k → (counterRun 0 d k).running = false) := by
  refine ⟨?_, counterDisplay_end_zero d hd, ?_⟩
  · rw [counterStep_eq 0 d hd.ne', counterStepQ_zero]
  · intro k hk
    obtain ⟨j, rfl⟩ : ∃ j, k = j + 1 := ⟨k - 1, by omega⟩
    rw [counterRun_end_zero d hd.ne' j]

/-- C2 amended witness: with end 0 and duration 2000 the displayed
value at tick 7 is 0. -/
theorem counter_degenerate_amended_witness :
    (0:ℕ) < 2000 ∧ counterDisplay 0 2000 7 = .num 0 :=
  ⟨by norm_num, (counter_degenerate_amended 2000 (by norm_num)).2.1 7⟩
